import Mathlib

/-!
Verification of the purple-rs consensus/mining core against its
specification.  The definitions below are shallow embeddings of the Rust
source files:

* src/network/src/packets/announce_block.rs  (packet codec)
* src/chain/src/pow_chain/chain_state.rs     (PowChainState)
* src/miner/src/miner.rs                     (PurpleMiner)

Bytes are modelled as natural numbers, byte buffers as lists of naturals,
hash maps as association lists and hash sets as lists.
-/

namespace Purple

/-! ### AnnounceBlock wire packet (announce_block.rs) -/

/-- Network errors (error.rs, only the variants the codec can produce). -/
inductive NetworkErr where
  | BadFormat
  | SessionExpired
  deriving DecidableEq, Repr

/-- AnnounceBlock packet: an 8-byte short block hash and a u64 nonce. -/
structure AnnounceBlock where
  block_hash : List Nat
  nonce : Nat
  deriving DecidableEq, Repr

/-- The fixed packet-type tag of AnnounceBlock (PACKET_TYPE = 10). -/
def PACKET_TYPE : Nat := 10

/-- Big-endian serialisation of a u64 (byteorder WriteBytesExt write_u64). -/
def be64 (n : Nat) : List Nat :=
  [n / 2 ^ 56 % 256, n / 2 ^ 48 % 256, n / 2 ^ 40 % 256, n / 2 ^ 32 % 256,
   n / 2 ^ 24 % 256, n / 2 ^ 16 % 256, n / 2 ^ 8 % 256, n % 256]

/-- Big-endian deserialisation of a u64 (byteorder ReadBytesExt read_u64). -/
def readBE64 (l : List Nat) : Nat := l.foldl (fun acc b => acc * 256 + b) 0

/-- announce_block.rs, to_bytes: tag byte, 8 nonce bytes, 8 hash bytes. -/
def AnnounceBlock.to_bytes (p : AnnounceBlock) : List Nat :=
  PACKET_TYPE :: (be64 p.nonce ++ p.block_hash)

/-- announce_block.rs, from_bytes: read the tag byte (BadFormat when the
buffer is empty), reject a wrong tag, read a big-endian u64 from position 1
(BadFormat when fewer than 8 bytes remain), drain the first 9 bytes and
require the remainder to be exactly 8 bytes of block hash. -/
def AnnounceBlock.from_bytes (bin : List Nat) : Except NetworkErr AnnounceBlock :=
  match bin with
  | [] => .error .BadFormat
  | packet_type :: rest =>
    if packet_type ≠ PACKET_TYPE then .error .BadFormat
    else if rest.length < 8 then .error .BadFormat
    else
      let nonce := readBE64 (rest.take 8)
      let buf := rest.drop 8
      if buf.length = 8 then .ok { block_hash := buf, nonce := nonce }
      else .error .BadFormat

theorem be64_length (n : Nat) : (be64 n).length = 8 := rfl

theorem readBE64_be64 (n : Nat) (h : n < 2 ^ 64) : readBE64 (be64 n) = n := by
  simp only [readBE64, be64, List.foldl]
  omega

example : AnnounceBlock.from_bytes (AnnounceBlock.to_bytes ⟨[1,2,3,4,5,6,7,8], 300⟩) =
    .ok ⟨[1,2,3,4,5,6,7,8], 300⟩ := by rfl

example : AnnounceBlock.from_bytes [9,0,0,0,0,0,0,0,0,1,2,3,4,5,6,7,8] =
    .error .BadFormat := by rfl

/-- C4: for every AnnounceBlock value (any u64 nonce and any 8-byte block
hash), decoding the 17-byte encoding produced by to_bytes with from_bytes
succeeds and reproduces the original nonce and block hash exactly. -/
theorem announce_block_roundtrip (p : AnnounceBlock)
    (hn : p.nonce < 2 ^ 64) (hh : p.block_hash.length = 8) :
    AnnounceBlock.from_bytes (AnnounceBlock.to_bytes p) = .ok p := by
  obtain ⟨hash, nonce⟩ := p
  simp only at hn hh
  have htake : (be64 nonce ++ hash).take 8 = be64 nonce := by simp [be64]
  have hdrop : (be64 nonce ++ hash).drop 8 = hash := by simp [be64]
  have hlen : ¬ ((be64 nonce ++ hash).length < 8) := by
    rw [List.length_append, be64_length]; omega
  simp only [AnnounceBlock.to_bytes, AnnounceBlock.from_bytes, ne_eq, not_true_eq_false,
    if_false, if_neg hlen, htake, hdrop, hh, if_pos rfl, readBE64_be64 nonce hn, if_pos trivial]

/-- C4 witness: the round trip at a concrete packet. -/
theorem announce_block_roundtrip_witness :
    (300 : Nat) < 2 ^ 64 ∧ ([1,2,3,4,5,6,7,8] : List Nat).length = 8 ∧
    AnnounceBlock.from_bytes
      (AnnounceBlock.to_bytes ⟨[1,2,3,4,5,6,7,8], 300⟩) = .ok ⟨[1,2,3,4,5,6,7,8], 300⟩ :=
  ⟨by decide, by decide, announce_block_roundtrip ⟨[1,2,3,4,5,6,7,8], 300⟩ (by decide) (by decide)⟩

/-- C5: from_bytes returns BadFormat exactly when the buffer length is not
17 or the first byte is not the tag 10; on every 17-byte buffer whose first
byte is 10 it succeeds, reading bytes 1..9 as a big-endian nonce and bytes
9..17 as the block hash. -/
theorem from_bytes_badformat_iff (bin : List Nat) :
    (AnnounceBlock.from_bytes bin = .error .BadFormat ↔
      ¬ (bin.length = 17 ∧ bin.head? = some PACKET_TYPE)) ∧
    (bin.length = 17 → bin.head? = some PACKET_TYPE →
      AnnounceBlock.from_bytes bin =
        .ok { block_hash := bin.drop 9, nonce := readBE64 ((bin.drop 1).take 8) }) := by
  match bin with
  | [] => simp [AnnounceBlock.from_bytes]
  | t :: rest =>
    simp only [AnnounceBlock.from_bytes, List.head?_cons, List.length_cons, Option.some.injEq,
      List.drop_succ_cons, List.drop_zero]
    by_cases ht : t = PACKET_TYPE
    · subst ht
      simp only [ne_eq, not_true_eq_false, if_false, ite_not]
      by_cases hlen : rest.length < 8
      · have h17 : ¬ (rest.length + 1 = 17) := by omega
        simp [if_pos hlen, h17, hlen]
      · have hdl : (rest.drop 8).length = rest.length - 8 := by simp
        by_cases h16 : rest.length = 16
        · have : (rest.drop 8).length = 8 := by omega
          simp [if_neg hlen, this, h16]
        · have hne : ¬ (rest.length - 8 = 8) := by omega
          have h17 : ¬ (rest.length + 1 = 17) := by omega
          simp [if_neg hlen, hne, h17]
    · have : ¬ (PACKET_TYPE = t) := fun h => ht h.symm
      simp [ht, this]

/-- C5 witness: the characterisation at concrete buffers. -/
theorem from_bytes_badformat_iff_witness :
    (AnnounceBlock.from_bytes [10,0,0,0,0,0,0,1,44,1,2,3,4,5,6,7,8] =
      .ok { block_hash := [1,2,3,4,5,6,7,8], nonce := 300 }) ∧
    (AnnounceBlock.from_bytes [9,0,0,0,0,0,0,1,44,1,2,3,4,5,6,7,8] = .error .BadFormat) := by
  constructor
  · have h := (from_bytes_badformat_iff [10,0,0,0,0,0,0,1,44,1,2,3,4,5,6,7,8]).2
      (by decide) (by decide)
    simpa using h
  · exact ((from_bytes_badformat_iff [9,0,0,0,0,0,0,1,44,1,2,3,4,5,6,7,8]).1).2 (by decide)

/-! ### PowChainState (chain_state.rs) -/

/-- Chain errors surfaced by consensus-state operations (the spec taxonomy
ConsensusError from section 7). -/
inductive ChainErr where
  | DuplicateValidator
  | DuplicateIp
  | UnknownValidator
  | InconsistentState
  deriving DecidableEq, Repr

/-- Modelled from the spec: validator_entry.rs is not under src/;
chain_state.rs only reads the fields start_pow_block and total_allocated.
Per spec section 3 a ValidatorEntry carries a node identity, a network
address, the admission-marker block hash and an allocated share. -/
structure ValidatorEntry where
  node_id : Nat
  addr : Nat
  start_pow_block : Nat
  total_allocated : Nat
  deriving DecidableEq, Repr

/-- chain_state.rs, PowChainState.  HashMap fields become association
lists, HashSet fields become lists, the VecDeque becomes a list. -/
structure PowChainState where
  height : Nat
  difficulty : Nat
  edge_bits : Nat
  first_end_epoch : Option Nat
  last_end_epoch : Option Nat
  pending_validators : List Nat
  active_validator_lookup : List (Nat × ValidatorEntry)
  pending_validator_lookup : List (Nat × ValidatorEntry)
  active_validator_ips : List Nat
  pending_validator_ips : List Nat
  start_epochs_mapping : List (Nat × List Nat)
  end_epochs_mapping : List (Nat × List Nat)
  deriving DecidableEq, Repr

/-- chain_state.rs, genesis: zeroed state with no validators.  The minimum
edge bits constant (miner::MIN_EDGE_BITS) is left abstract as 0. -/
def PowChainState.genesis : PowChainState :=
  { height := 0, difficulty := 0, edge_bits := 0,
    first_end_epoch := none, last_end_epoch := none,
    pending_validators := [], active_validator_lookup := [],
    pending_validator_lookup := [], active_validator_ips := [],
    pending_validator_ips := [], start_epochs_mapping := [],
    end_epochs_mapping := [] }

/-- chain_state.rs, is_pending_or_active: true when the id is in the active
lookup or in the pending lookup. -/
def PowChainState.is_pending_or_active (s : PowChainState) (node_id : Nat) : Bool :=
  (s.active_validator_lookup.lookup node_id).isSome ||
    (s.pending_validator_lookup.lookup node_id).isSome

/-- Result of a query that can hit a Rust panic: ok with a value, or the
panicked outcome of reaching an unreachable! arm. -/
inductive QueryResult (α : Type) where
  | ok : α → QueryResult α
  | panicked : QueryResult α
  deriving DecidableEq, Repr

/-- chain_state.rs, get_start_pow_block: match on the pair of lookups; the
(Some, Some) arm of the source is unreachable! and therefore panics. -/
def PowChainState.get_start_pow_block (s : PowChainState) (id : Nat) :
    QueryResult (Option Nat) :=
  match s.active_validator_lookup.lookup id, s.pending_validator_lookup.lookup id with
  | some entry, none => .ok (some entry.start_pow_block)
  | none, some entry => .ok (some entry.start_pow_block)
  | none, none => .ok none
  | some _, some _ => .panicked

/-- A state holding the same node id in both the active and the pending
lookup, violating the exclusivity invariant. -/
def bothLookupsState : PowChainState :=
  { PowChainState.genesis with
    active_validator_lookup := [(0, ⟨0, 1, 77, 5⟩)],
    pending_validator_lookup := [(0, ⟨0, 2, 88, 5⟩)] }

/-- C2 counterexample: on a state whose active and pending lookups both
contain id 0, get_start_pow_block panics (the unreachable! arm) instead of
surfacing a typed InconsistentState error. -/
theorem get_start_pow_block_panics_on_double_entry :
    (bothLookupsState.active_validator_lookup.lookup 0).isSome = true ∧
    (bothLookupsState.pending_validator_lookup.lookup 0).isSome = true ∧
    bothLookupsState.get_start_pow_block 0 = QueryResult.panicked := by
  refine ⟨rfl, rfl, rfl⟩

/-- C2 amended: get_start_pow_block returns the stored start_pow_block hash
when the id is present in exactly one of the two lookups, returns none when
it is present in neither, and panics via the unreachable! arm (rather than
returning a typed error) when it is present in both. -/
theorem get_start_pow_block_cases (s : PowChainState) (id : Nat) :
    (s.is_pending_or_active id = false → s.get_start_pow_block id = .ok none) ∧
    (∀ e, s.active_validator_lookup.lookup id = some e →
      s.pending_validator_lookup.lookup id = none →
      s.get_start_pow_block id = .ok (some e.start_pow_block)) ∧
    (∀ e, s.pending_validator_lookup.lookup id = some e →
      s.active_validator_lookup.lookup id = none →
      s.get_start_pow_block id = .ok (some e.start_pow_block)) ∧
    ((s.active_validator_lookup.lookup id).isSome = true →
      (s.pending_validator_lookup.lookup id).isSome = true →
      s.get_start_pow_block id = .panicked) := by
  unfold PowChainState.get_start_pow_block PowChainState.is_pending_or_active
  rcases ha : s.active_validator_lookup.lookup id with _ | ea <;>
    rcases hp : s.pending_validator_lookup.lookup id with _ | ep <;>
      simp [ha, hp]

/-- C2 amended, witness at concrete states. -/
theorem get_start_pow_block_cases_witness :
    PowChainState.genesis.get_start_pow_block 3 = .ok none ∧
    bothLookupsState.get_start_pow_block 0 = .panicked := by
  constructor
  · exact (get_start_pow_block_cases PowChainState.genesis 3).1 rfl
  · exact (get_start_pow_block_cases bothLookupsState 0).2.2.2 rfl rfl

/-- Modelled from the spec: the admit_pending operation of the consensus
state is not present under src/ (chain_state.rs shows only the query
operations).  Spec section 4.1: fail with DuplicateValidator if the node id
is already pending or active; fail with DuplicateIp if the address is
already listed in either address set; otherwise insert into the pending
lookup and pending address set and enqueue the node id on the
pending_validators queue. -/
def PowChainState.admit_pending (s : PowChainState) (entry : ValidatorEntry) :
    Except ChainErr PowChainState :=
  if s.is_pending_or_active entry.node_id then .error .DuplicateValidator
  else if s.active_validator_ips.contains entry.addr ||
      s.pending_validator_ips.contains entry.addr then .error .DuplicateIp
  else .ok { s with
    pending_validator_lookup := s.pending_validator_lookup ++ [(entry.node_id, entry)],
    pending_validator_ips := s.pending_validator_ips ++ [entry.addr],
    pending_validators := s.pending_validators ++ [entry.node_id] }

/-- C3: admit_pending returns DuplicateValidator when the node id is
already in the pending or active lookup, returns DuplicateIp when the
address is already in either address set, and otherwise inserts the entry
into the pending lookup and pending address set and enqueues its node id on
the pending_validators queue. -/
theorem admit_pending_spec (s : PowChainState) (entry : ValidatorEntry) :
    ((s.pending_validator_lookup.lookup entry.node_id).isSome = true ∨
      (s.active_validator_lookup.lookup entry.node_id).isSome = true →
      s.admit_pending entry = .error .DuplicateValidator) ∧
    (s.is_pending_or_active entry.node_id = false →
      s.active_validator_ips.contains entry.addr = true ∨
      s.pending_validator_ips.contains entry.addr = true →
      s.admit_pending entry = .error .DuplicateIp) ∧
    (s.is_pending_or_active entry.node_id = false →
      s.active_validator_ips.contains entry.addr = false →
      s.pending_validator_ips.contains entry.addr = false →
      s.admit_pending entry = .ok { s with
        pending_validator_lookup := s.pending_validator_lookup ++ [(entry.node_id, entry)],
        pending_validator_ips := s.pending_validator_ips ++ [entry.addr],
        pending_validators := s.pending_validators ++ [entry.node_id] }) := by
  refine ⟨fun h => ?_, fun h1 h2 => ?_, fun h1 h2 h3 => ?_⟩
  · have hb : s.is_pending_or_active entry.node_id = true := by
      unfold PowChainState.is_pending_or_active
      rcases h with h | h <;> simp [h]
    simp [PowChainState.admit_pending, hb]
  · have hb : (s.active_validator_ips.contains entry.addr ||
        s.pending_validator_ips.contains entry.addr) = true := by
      rcases h2 with h | h <;> simp_all
    unfold PowChainState.admit_pending
    rw [if_neg (by simp [h1]), if_pos hb]
  · unfold PowChainState.admit_pending
    rw [if_neg (by simp [h1]), if_neg (by simp_all)]

/-- C3 witness: admitting a fresh entry into the genesis state succeeds and
admitting it twice fails with DuplicateValidator. -/
theorem admit_pending_spec_witness :
    PowChainState.genesis.admit_pending ⟨4, 9, 55, 1⟩ =
      .ok { PowChainState.genesis with
        pending_validator_lookup := [(4, ⟨4, 9, 55, 1⟩)],
        pending_validator_ips := [9],
        pending_validators := [4] } ∧
    bothLookupsState.admit_pending ⟨0, 9, 55, 1⟩ = .error .DuplicateValidator := by
  constructor
  · have h := (admit_pending_spec PowChainState.genesis ⟨4, 9, 55, 1⟩).2.2 rfl rfl rfl
    simpa using h
  · exact (admit_pending_spec bothLookupsState ⟨0, 9, 55, 1⟩).1 (Or.inl rfl)

/-- C10: on every state in which no node id is present in both lookups,
is_pending_or_active and get_start_pow_block agree on membership: the first
returns true exactly when the second returns some stored hash. -/
theorem is_pending_or_active_iff_get_start_pow_block (s : PowChainState) (id : Nat)
    (hdisj : ∀ j, (s.active_validator_lookup.lookup j).isSome = false ∨
      (s.pending_validator_lookup.lookup j).isSome = false) :
    s.is_pending_or_active id = true ↔
      ∃ h, s.get_start_pow_block id = .ok (some h) := by
  unfold PowChainState.is_pending_or_active PowChainState.get_start_pow_block
  rcases ha : s.active_validator_lookup.lookup id with _ | ea <;>
    rcases hp : s.pending_validator_lookup.lookup id with _ | ep
  · simp
  · simp
  · simp
  · rcases hdisj id with h | h <;> simp [ha, hp] at h

/-- A state with a single pending validator, used as a witness state. -/
def singlePendingState : PowChainState :=
  { PowChainState.genesis with
    pending_validator_lookup := [(4, ⟨4, 9, 55, 1⟩)],
    pending_validator_ips := [9],
    pending_validators := [4] }

/-- C10 witness: agreement at a concrete state and id. -/
theorem is_pending_or_active_iff_get_start_pow_block_witness :
    (∀ j, (singlePendingState.active_validator_lookup.lookup j).isSome = false ∨
      (singlePendingState.pending_validator_lookup.lookup j).isSome = false) ∧
    (singlePendingState.is_pending_or_active 4 = true ↔
      ∃ h, singlePendingState.get_start_pow_block 4 = .ok (some h)) := by
  refine ⟨fun j => Or.inl rfl, ?_⟩
  exact is_pending_or_active_iff_get_start_pow_block singlePendingState 4 (fun j => Or.inl rfl)

/-! ### PurpleMiner (miner.rs) -/

/-- Miner errors (error.rs is not under src/; only a nonempty error type is
needed to give notify and get_stats their Result types). -/
inductive CuckooMinerError where
  | PluginNotFoundError
  | SolverException
  deriving DecidableEq, Repr

/-- A single solution as produced by a solver plugin: the proof nonces, the
stamped iteration nonce and the stamped job id. -/
structure Solution where
  id : Nat
  nonce : Nat
  proof : List Nat
  deriving DecidableEq, Repr

/-- A batch of solutions from one solver run.  The fixed-size sols array of
the plugin interface with its num_sols counter is modelled as the list of
its first num_sols entries. -/
structure SolverSolutions where
  edge_bits : Nat
  sols : List Solution
  deriving DecidableEq, Repr

/-- proof.rs Proof value built by the difficulty filter in solver_thread. -/
structure PowProof where
  edge_bits : Nat
  nonces : List Nat
  deriving DecidableEq, Repr

/-- Per-worker statistics slot. -/
structure SolverStats where
  plugin_name : String
  iterations : Nat
  has_errored : Bool
  deriving DecidableEq, Repr

/-- Modelled from the spec: shared_data.rs is not under src/.  Per spec
section 3 JobSharedData holds the header bytes, height, job id, target
difficulty, the per-worker stats array and the ordered collection of
accepted solutions, most-recently-pushed retrieved first (miner.rs
manipulates exactly these fields, with solutions a Vec used via push, pop
and len). -/
structure JobSharedData where
  header : List Nat
  height : Nat
  job_id : Nat
  difficulty : Nat
  stats : List SolverStats
  solutions : List SolverSolutions
  deriving DecidableEq, Repr

/-- Control messages sent by the supervisor, tagged with the receiving
receiving worker channel: each worker has a control channel and a loop channel. -/
inductive MsgEvent where
  | pauseCtrl (i : Nat)
  | pauseLoop (i : Nat)
  | resumeCtrl (i : Nat)
  | resumeLoop (i : Nat)
  | writeJobId (v : Nat)
  | writeHeight (v : Nat)
  | writeHeader (h : List Nat)
  | writeDifficulty (v : Nat)
  deriving DecidableEq, Repr

/-- miner.rs, pause_solvers: send Pause on every control channel, then on
every solver loop channel. -/
def pause_solvers (nworkers : Nat) : List MsgEvent :=
  (List.range nworkers).map MsgEvent.pauseCtrl ++ (List.range nworkers).map MsgEvent.pauseLoop

/-- miner.rs, resume_solvers: send Resume on every control channel, then on
every solver loop channel. -/
def resume_solvers (nworkers : Nat) : List MsgEvent :=
  (List.range nworkers).map MsgEvent.resumeCtrl ++ (List.range nworkers).map MsgEvent.resumeLoop

/-- The four job-field writes performed by notify, in source order. -/
def job_write_events (job_id height : Nat) (header : List Nat) (difficulty : Nat) :
    List MsgEvent :=
  [MsgEvent.writeJobId job_id, MsgEvent.writeHeight height,
   MsgEvent.writeHeader header, MsgEvent.writeDifficulty difficulty]

/-- miner.rs, notify: under the write lock, pause all solvers when the new
height differs from the stored height, write job_id, height, header and
difficulty, and resume all solvers when a pause was issued.  The returned
event list records the channel sends and field writes in order. -/
def notify (nworkers : Nat) (sd : JobSharedData) (job_id height : Nat)
    (header : List Nat) (difficulty : Nat) :
    Except CuckooMinerError (JobSharedData × List MsgEvent) :=
  let paused : Bool := height != sd.height
  let preEvents := if paused then pause_solvers nworkers else []
  let postEvents := if paused then resume_solvers nworkers else []
  .ok ({ sd with
          job_id := job_id
          height := height
          header := header
          difficulty := difficulty },
       preEvents ++ job_write_events job_id height header difficulty ++ postEvents)

/-- miner.rs, get_solutions: pop the most recently pushed batch from the
solutions Vec, or return none when it is empty. -/
def get_solutions (sd : JobSharedData) : Option SolverSolutions × JobSharedData :=
  if 0 < sd.solutions.length then
    (sd.solutions.getLast?, { sd with solutions := sd.solutions.dropLast })
  else (none, sd)

/-- miner.rs, get_stats: Ok with a clone of the stats array. -/
def get_stats (sd : JobSharedData) : Except CuckooMinerError (List SolverStats) :=
  .ok sd.stats

/-- The stamping step of solver_thread: overwrite the nonce and job id of a
surviving solution. -/
def stampSol (nonce job_id : Nat) (s : Solution) : Solution :=
  { s with nonce := nonce, id := job_id }

/-- The filter-and-stamp step of solver_thread (miner.rs lines 164-189):
keep the solutions whose proof difficulty reaches the target and stamp each
survivor with the iteration nonce and the snapshotted job id.  The proof
difficulty computation (proof.rs, not under src/) is a parameter. -/
def filterStamp (diffOf : PowProof → Nat) (ss : SolverSolutions)
    (target nonce job_id : Nat) : SolverSolutions :=
  { edge_bits := ss.edge_bits,
    sols := (ss.sols.filter fun s =>
        decide (target ≤ diffOf ⟨ss.edge_bits, s.proof⟩)).map (stampSol nonce job_id) }

/-- The post-run publication step of solver_thread (miner.rs lines
159-203): when the snapshotted height still equals the stored height,
republish the stats slot of this worker and, when the run produced solutions,
push the filtered and stamped batch onto the shared solution queue;
otherwise discard everything. -/
def publish_results (diffOf : PowProof → Nat) (workerIdx : Nat) (sd : JobSharedData)
    (snapHeight snapJobId nonce target iter_count : Nat)
    (stats : SolverStats) (ss : SolverSolutions) : JobSharedData :=
  if snapHeight = sd.height then
    let sd1 := { sd with stats := sd.stats.set workerIdx { stats with iterations := iter_count } }
    if 0 < ss.sols.length then
      { sd1 with solutions := sd1.solutions ++ [filterStamp diffOf ss target nonce snapJobId] }
    else sd1
  else sd

/-- C6: notify writes all four job fields; when the height differs from the
stored height it broadcasts Pause to the control and loop channels of
every worker before any field write and Resume to all of them after the writes;
when the height is unchanged it sends no Pause and no Resume. -/
theorem notify_pause_write_resume (n : Nat) (sd : JobSharedData) (job_id height : Nat)
    (header : List Nat) (difficulty : Nat) :
    (∃ sd', notify n sd job_id height header difficulty = .ok (sd',
        if height = sd.height then job_write_events job_id height header difficulty
        else pause_solvers n ++ job_write_events job_id height header difficulty ++
          resume_solvers n) ∧
      sd'.job_id = job_id ∧ sd'.height = height ∧ sd'.header = header ∧
      sd'.difficulty = difficulty) ∧
    (∀ i, i < n → MsgEvent.pauseCtrl i ∈ pause_solvers n ∧
      MsgEvent.pauseLoop i ∈ pause_solvers n ∧
      MsgEvent.resumeCtrl i ∈ resume_solvers n ∧
      MsgEvent.resumeLoop i ∈ resume_solvers n) := by
  constructor
  · refine ⟨{ sd with
        job_id := job_id
        height := height
        header := header
        difficulty := difficulty }, ?_, rfl, rfl, rfl, rfl⟩
    by_cases h : height = sd.height <;> simp [notify, h]
  · intro i hi
    have hr : i ∈ List.range n := List.mem_range.mpr hi
    simp only [pause_solvers, resume_solvers]
    exact ⟨List.mem_append.mpr (Or.inl (List.mem_map.mpr ⟨i, hr, rfl⟩)),
      List.mem_append.mpr (Or.inr (List.mem_map.mpr ⟨i, hr, rfl⟩)),
      List.mem_append.mpr (Or.inl (List.mem_map.mpr ⟨i, hr, rfl⟩)),
      List.mem_append.mpr (Or.inr (List.mem_map.mpr ⟨i, hr, rfl⟩))⟩

/-- C6 witness: notify at a height change. -/
theorem notify_pause_write_resume_witness :
    (∃ sd', notify 2 ⟨[], 5, 0, 0, [], []⟩ 1 6 [3] 9 = .ok (sd',
        pause_solvers 2 ++ job_write_events 1 6 [3] 9 ++ resume_solvers 2) ∧
      sd'.job_id = 1 ∧ sd'.height = 6 ∧ sd'.header = [3] ∧ sd'.difficulty = 9) ∧
    MsgEvent.pauseCtrl 1 ∈ pause_solvers 2 := by
  have h := notify_pause_write_resume 2 ⟨[], 5, 0, 0, [], []⟩ 1 6 [3] 9
  refine ⟨?_, (h.2 1 (by decide)).1⟩
  obtain ⟨sd', heq, hrest⟩ := h.1
  exact ⟨sd', by simpa using heq, hrest⟩

/-- C9: the error branches of notify and get_stats are dead: notify always
returns Ok and get_stats always returns Ok with a snapshot of the stats
array. -/
theorem notify_get_stats_infallible (n : Nat) (sd : JobSharedData) (job_id height : Nat)
    (header : List Nat) (difficulty : Nat) :
    (∃ r, notify n sd job_id height header difficulty = .ok r) ∧
    get_stats sd = .ok sd.stats :=
  ⟨⟨_, rfl⟩, rfl⟩

/-- C8: get_solutions returns none and leaves the queue unchanged when the
queue is empty, and otherwise removes and returns exactly the most recently
pushed batch, leaving the earlier batches and their order unchanged. -/
theorem get_solutions_lifo (sd : JobSharedData) :
    (sd.solutions = [] → get_solutions sd = (none, sd)) ∧
    (∀ l x, sd.solutions = l ++ [x] →
      get_solutions sd = (some x, { sd with solutions := l })) := by
  constructor
  · intro h
    simp [get_solutions, h]
  · intro l x h
    simp [get_solutions, h]

/-- C8 witness: popping from a two-element queue returns the later batch. -/
theorem get_solutions_lifo_witness :
    get_solutions ⟨[], 0, 0, 0, [], [⟨29, []⟩, ⟨31, []⟩]⟩ =
      (some ⟨31, []⟩, ⟨[], 0, 0, 0, [], [⟨29, []⟩]⟩) := by
  have h := (get_solutions_lifo ⟨[], 0, 0, 0, [], [⟨29, []⟩, ⟨31, []⟩]⟩).2
    [⟨29, []⟩] ⟨31, []⟩ rfl
  simpa using h

/-- C7: in a worker iteration whose snapshotted height is still current
after the solve and whose run produced solutions, the batch pushed onto the
shared solution queue contains exactly the produced solutions whose proof
difficulty reaches the snapshotted target, each stamped with the iteration
nonce and the snapshotted job id. -/
theorem solver_push_filtered (diffOf : PowProof → Nat) (workerIdx : Nat)
    (sd : JobSharedData) (snapHeight snapJobId nonce target iter_count : Nat)
    (stats : SolverStats) (ss : SolverSolutions)
    (hvalid : snapHeight = sd.height) (hsols : ss.sols ≠ []) :
    ∃ batch,
      (publish_results diffOf workerIdx sd snapHeight snapJobId nonce target
          iter_count stats ss).solutions = sd.solutions ++ [batch] ∧
      batch.edge_bits = ss.edge_bits ∧
      (∀ x, x ∈ batch.sols ↔ ∃ s ∈ ss.sols,
        target ≤ diffOf ⟨ss.edge_bits, s.proof⟩ ∧ x = stampSol nonce snapJobId s) := by
  refine ⟨filterStamp diffOf ss target nonce snapJobId, ?_, rfl, ?_⟩
  · have hlen : 0 < ss.sols.length := List.length_pos.mpr hsols
    simp [publish_results, hvalid, hlen]
  · intro x
    simp only [filterStamp, List.mem_map, List.mem_filter, decide_eq_true_eq]
    constructor
    · rintro ⟨s, ⟨hs, hd⟩, hx⟩
      exact ⟨s, hs, hd, hx.symm⟩
    · rintro ⟨s, hs, hd, hx⟩
      exact ⟨s, ⟨hs, hd⟩, hx.symm⟩

/-- C7 witness: with target 1000, a produced solution of difficulty 1500 is
pushed stamped with the nonce and job id, and one of difficulty 900 is
discarded. -/
theorem solver_push_filtered_witness :
    ∃ batch,
      (publish_results (fun p => p.nonces.headD 0) 0
          ⟨[], 100, 1, 1000, [⟨"", 0, false⟩], []⟩
          100 1 7 1000 1 ⟨"", 0, false⟩ ⟨29, [⟨0, 0, [1500]⟩, ⟨0, 0, [900]⟩]⟩).solutions
        = [] ++ [batch] ∧
      batch.edge_bits = 29 ∧
      (∀ x, x ∈ batch.sols ↔ ∃ s ∈ [(⟨0, 0, [1500]⟩ : Solution), ⟨0, 0, [900]⟩],
        1000 ≤ (fun (p : PowProof) => p.nonces.headD 0) ⟨29, s.proof⟩ ∧
          x = stampSol 7 1 s) :=
  solver_push_filtered (fun p => p.nonces.headD 0) 0
    ⟨[], 100, 1, 1000, [⟨"", 0, false⟩], []⟩
    100 1 7 1000 1 ⟨"", 0, false⟩ ⟨29, [⟨0, 0, [1500]⟩, ⟨0, 0, [900]⟩]⟩
    rfl (by simp)

/-! ### Interleaving model: notify racing one solver thread (C1)

miner.rs guards JobSharedData with a single reader/writer lock.  notify
holds the write lock across all four field writes, so it is one atomic
action.  The solver thread takes the lock separately for each of the four
job-field snapshots (miner.rs lines 142-145), releases it during the solve,
re-acquires a read lock for the height re-check (line 159) and then a write
lock for the publication (lines 161-203).  Each of these lock-protected
sections is one atomic action of the model; an interleaving is any sequence
of such actions. -/

/-- Position of the solver thread inside one loop iteration. -/
inductive WPhase where
  | idle
  | hasHeader
  | hasHeight
  | hasJobId
  | ready
  | solved
  | checked
  deriving DecidableEq, Repr

/-- Thread-local state of one solver worker. -/
structure WorkerState where
  phase : WPhase
  snapHeader : List Nat
  snapHeight : Nat
  snapJobId : Nat
  snapDiff : Nat
  nonce : Nat
  sols : SolverSolutions
  runStats : SolverStats
  still_valid : Bool
  heightAtCheck : Nat
  iter_count : Nat
  deriving DecidableEq, Repr

/-- A configuration: the lock-guarded shared data plus one worker. -/
structure Config where
  shared : JobSharedData
  worker : WorkerState
  deriving DecidableEq, Repr

/-- One atomic (lock-protected) action.  The solve itself touches no shared
data, so its nondeterministic backend output is carried as parameters of
the run action. -/
inductive Act where
  | notify (job_id height : Nat) (header : List Nat) (difficulty : Nat)
  | snapHeader
  | snapHeight
  | snapJobId
  | snapDifficulty
  | run (nonce : Nat) (out : SolverSolutions) (outStats : SolverStats)
  | heightCheck
  | publish
  deriving DecidableEq, Repr

/-- The write-locked publication block of solver_thread (miner.rs lines
161-203) as it executes given the previously computed still_valid flag:
no height re-check happens under the write lock. -/
def publish_locked (diffOf : PowProof → Nat) (workerIdx : Nat)
    (sd : JobSharedData) (w : WorkerState) : JobSharedData :=
  if w.still_valid then
    let sd1 := { sd with
      stats := sd.stats.set workerIdx { w.runStats with iterations := w.iter_count } }
    if 0 < w.sols.sols.length then
      { sd1 with
        solutions := sd1.solutions ++ [filterStamp diffOf w.sols w.snapDiff w.nonce w.snapJobId] }
    else sd1
  else sd

/-- Small-step execution of one action; none when the action is not
enabled in the current configuration. -/
def exec (diffOf : PowProof → Nat) (workerIdx : Nat) (cfg : Config) : Act → Option Config
  | .notify j h hdr d =>
      some { cfg with shared := { cfg.shared with
        job_id := j
        height := h
        header := hdr
        difficulty := d } }
  | .snapHeader =>
      match cfg.worker.phase with
      | .idle => some { cfg with worker := { cfg.worker with
          phase := .hasHeader
          snapHeader := cfg.shared.header } }
      | _ => none
  | .snapHeight =>
      match cfg.worker.phase with
      | .hasHeader => some { cfg with worker := { cfg.worker with
          phase := .hasHeight
          snapHeight := cfg.shared.height } }
      | _ => none
  | .snapJobId =>
      match cfg.worker.phase with
      | .hasHeight => some { cfg with worker := { cfg.worker with
          phase := .hasJobId
          snapJobId := cfg.shared.job_id } }
      | _ => none
  | .snapDifficulty =>
      match cfg.worker.phase with
      | .hasJobId => some { cfg with worker := { cfg.worker with
          phase := .ready
          snapDiff := cfg.shared.difficulty } }
      | _ => none
  | .run nonce out outStats =>
      match cfg.worker.phase with
      | .ready => some { cfg with worker := { cfg.worker with
          phase := .solved
          nonce := nonce
          sols := out
          runStats := outStats
          iter_count := cfg.worker.iter_count + 1 } }
      | _ => none
  | .heightCheck =>
      match cfg.worker.phase with
      | .solved => some { cfg with worker := { cfg.worker with
          phase := .checked
          still_valid := cfg.worker.snapHeight == cfg.shared.height
          heightAtCheck := cfg.shared.height } }
      | _ => none
  | .publish =>
      match cfg.worker.phase with
      | .checked => some
          { shared := publish_locked diffOf workerIdx cfg.shared cfg.worker,
            worker := { cfg.worker with
              phase := .idle
              sols := ⟨0, []⟩ } }
      | _ => none

/-- Run a whole sequence of actions; none when some action is disabled. -/
def execTrace (diffOf : PowProof → Nat) (workerIdx : Nat) :
    Config → List Act → Option Config
  | cfg, [] => some cfg
  | cfg, a :: rest =>
      match exec diffOf workerIdx cfg a with
      | none => none
      | some cfg2 => execTrace diffOf workerIdx cfg2 rest

/-- Check of claim C1 at one action: when the action is a publication that
pushes a batch, every solution of the batch must carry the job id stored in
the shared data at the moment of the push. -/
def actJobIdOk (diffOf : PowProof → Nat) (cfg : Config) : Act → Bool
  | .publish =>
      if cfg.worker.phase == .checked && cfg.worker.still_valid &&
          decide (0 < cfg.worker.sols.sols.length) then
        (filterStamp diffOf cfg.worker.sols cfg.worker.snapDiff cfg.worker.nonce
          cfg.worker.snapJobId).sols.all (fun x => x.id == cfg.shared.job_id)
      else true
  | _ => true

/-- Claim C1 as a trace predicate: along the trace, every push carries the
currently stored job id.  Disabled actions end the scrutiny. -/
def traceJobIdOk (diffOf : PowProof → Nat) (workerIdx : Nat) :
    Config → List Act → Bool
  | _, [] => true
  | cfg, a :: rest =>
      match exec diffOf workerIdx cfg a with
      | none => true
      | some cfg2 => actJobIdOk diffOf cfg a && traceJobIdOk diffOf workerIdx cfg2 rest

/-- A worker thread at the top of its loop, nothing snapshotted yet. -/
def initWorker : WorkerState :=
  ⟨.idle, [], 0, 0, 0, 0, ⟨0, []⟩, ⟨"", 0, false⟩, false, 0, 0⟩

/-- Initial configuration for the stale-job race: job id 1 at height 100. -/
def raceStart : Config := ⟨⟨[0], 100, 1, 0, [⟨"", 0, false⟩], []⟩, initWorker⟩

/-- The racing interleaving: the worker snapshots job 1 and solves; notify
then changes the job id to 2 keeping height 100 (so no pause is issued and
the height re-check passes); the worker publishes a solution stamped with
job id 1 while the stored job id is 2. -/
def raceTrace : List Act :=
  [.snapHeader, .snapHeight, .snapJobId, .snapDifficulty,
   .run 7 ⟨29, [⟨0, 0, [5]⟩]⟩ ⟨"", 1, false⟩,
   .notify 2 100 [0] 0,
   .heightCheck, .publish]

/-- C1 counterexample: the interleaving raceTrace is executable from
raceStart, yet its publication pushes a solution whose stamped job id
differs from the job id stored at the moment of the push — notify changed
the job id without changing the height, so the height-based staleness check
does not catch it. -/
theorem stale_job_id_leak :
    (execTrace (fun _ => 0) 0 raceStart raceTrace).isSome = true ∧
    traceJobIdOk (fun _ => 0) 0 raceStart raceTrace = false := by
  constructor <;> rfl

/-- The worker invariant backing the amended claim: whenever the worker has
passed the height re-check with still_valid set, the snapshotted height
equals the height that was stored at the instant of that re-check. -/
def WInv (cfg : Config) : Prop :=
  cfg.worker.phase = .checked → cfg.worker.still_valid = true →
    cfg.worker.snapHeight = cfg.worker.heightAtCheck

/-- Check of the amended claim at one action: a publication that pushes a
batch only happens when the snapshotted height equalled the stored height
at the instant of the height re-check, and every pushed solution is stamped
with the snapshotted job id and the iteration nonce. -/
def actStaleOk (diffOf : PowProof → Nat) (cfg : Config) : Act → Bool
  | .publish =>
      if cfg.worker.phase == .checked && cfg.worker.still_valid then
        cfg.worker.snapHeight == cfg.worker.heightAtCheck &&
        (filterStamp diffOf cfg.worker.sols cfg.worker.snapDiff cfg.worker.nonce
          cfg.worker.snapJobId).sols.all
            (fun x => x.id == cfg.worker.snapJobId && x.nonce == cfg.worker.nonce)
      else true
  | _ => true

/-- The amended claim as a trace predicate. -/
def traceStaleOk (diffOf : PowProof → Nat) (workerIdx : Nat) :
    Config → List Act → Bool
  | _, [] => true
  | cfg, a :: rest =>
      match exec diffOf workerIdx cfg a with
      | none => true
      | some cfg2 => actStaleOk diffOf cfg a && traceStaleOk diffOf workerIdx cfg2 rest

theorem exec_preserves_WInv (diffOf : PowProof → Nat) (workerIdx : Nat)
    (cfg cfg2 : Config) (a : Act) (h : exec diffOf workerIdx cfg a = some cfg2)
    (hInv : WInv cfg) : WInv cfg2 := by
  cases a <;> simp only [exec] at h
  case notify j hgt hdr d =>
    cases h
    intro h1 h2
    exact hInv h1 h2
  case snapHeader =>
    rcases hp : cfg.worker.phase <;> rw [hp] at h <;> cases h <;> (intro h1; simp at h1)
  case snapHeight =>
    rcases hp : cfg.worker.phase <;> rw [hp] at h <;> cases h <;> (intro h1; simp at h1)
  case snapJobId =>
    rcases hp : cfg.worker.phase <;> rw [hp] at h <;> cases h <;> (intro h1; simp at h1)
  case snapDifficulty =>
    rcases hp : cfg.worker.phase <;> rw [hp] at h <;> cases h <;> (intro h1; simp at h1)
  case run nonce out outStats =>
    rcases hp : cfg.worker.phase <;> rw [hp] at h <;> cases h <;> (intro h1; simp at h1)
  case heightCheck =>
    rcases hp : cfg.worker.phase <;> rw [hp] at h <;> cases h <;> (intro h1; try simp at h1)
    intro h2
    simp only at h2 ⊢
    exact eq_of_beq h2
  case publish =>
    rcases hp : cfg.worker.phase <;> rw [hp] at h <;> cases h <;> (intro h1; simp at h1)

theorem actStaleOk_of_WInv (diffOf : PowProof → Nat) (cfg : Config) (a : Act)
    (hInv : WInv cfg) : actStaleOk diffOf cfg a = true := by
  cases a <;> simp only [actStaleOk]
  case publish =>
    rcases hc : (cfg.worker.phase == WPhase.checked && cfg.worker.still_valid) with _ | _
    · simp
    · rw [if_pos rfl]
      simp only [Bool.and_eq_true, beq_iff_eq] at hc
      rw [Bool.and_eq_true]
      refine ⟨?_, ?_⟩
      · simp [hInv hc.1 hc.2]
      · rw [List.all_eq_true]
        intro x hx
        simp only [filterStamp, List.mem_map, List.mem_filter] at hx
        obtain ⟨s, _, hs⟩ := hx
        subst hs
        simp [stampSol]

/-- C1 amended: in every interleaving of notify calls and worker actions
started from a worker satisfying the invariant (in particular a worker at
the top of its loop), a batch is pushed only when the snapshotted height
equalled the stored height at the instant of the post-solve height
re-check, and every pushed solution is stamped with the pre-run snapshot
job id and the iteration nonce.  (The stamped job id can differ from the
job id stored at the moment of the push; see stale_job_id_leak.) -/
theorem stale_height_guard (diffOf : PowProof → Nat) (workerIdx : Nat)
    (cfg : Config) (steps : List Act) (hInv : WInv cfg) :
    traceStaleOk diffOf workerIdx cfg steps = true := by
  induction steps generalizing cfg with
  | nil => rfl
  | cons a rest ih =>
    simp only [traceStaleOk]
    rcases h : exec diffOf workerIdx cfg a with _ | cfg2
    · rfl
    · rw [Bool.and_eq_true]
      exact ⟨actStaleOk_of_WInv diffOf cfg a hInv,
        ih cfg2 (exec_preserves_WInv diffOf workerIdx cfg cfg2 a h hInv)⟩

/-- C1 amended, witness: the guard holds along the racing interleaving
itself when started from the initial worker. -/
theorem stale_height_guard_witness :
    traceStaleOk (fun _ => 0) 0 raceStart raceTrace = true :=
  stale_height_guard (fun _ => 0) 0 raceStart raceTrace
    (fun h => by simp [raceStart, initWorker] at h)

end Purple
